import Mathlib

/-!
Verification of the live tutoring session orchestrator
(`src/components/LiveTutor.tsx` and its earlier revision in
`src/unnamed/part_001`).

The development shallowly embeds the pieces of the component that the
specification talks about:

* the transcript assembler `updateTranscript` (LiveTutor.tsx lines 356-366);
* the inbound audio playback scheduler inside the `onmessage` callback
  (lines 703-725) together with the `turnComplete` handling (line 666)
  and the per-source `ended` listener (lines 711-714);
* the adaptive quality controller `updateQuality` (lines 208-228);
* the tool-call dispatch (lines 669-700);
* the `onerror` callback (lines 731-735), `stopSession` (lines 467-504)
  and the entry behaviour of `startSession` (lines 540-746) together
  with the rendering guard of its only call site (lines 1452-1470).

Machine numbers (audio clock times, buffer durations, network telemetry)
are embedded as rationals; wall-clock stamps (`Date.now()`) are passed in
explicitly as naturals.
-/

namespace LiveTutor

/-- Speaker role of a chat message; the source uses the string union
`'user' | 'model'` (types.ts / `src/unnamed/part_000`). -/
inductive Role where
  | user
  | model
deriving DecidableEq, Repr

/-- One turn fragment of dialogue, from `ChatMessage` in types.ts:
`id`, `role`, `text`, `isComplete`, `timestamp`.  The source stores
`id = Date.now().toString()` and `timestamp = Date.now()`; both are
embedded as the natural number handed to `updateTranscript` as `now`. -/
structure ChatMessage where
  id : Nat
  role : Role
  text : String
  isComplete : Bool
  timestamp : Nat
deriving DecidableEq, Repr

/-- Transcript assembler, from `updateTranscript` in LiveTutor.tsx
lines 356-366 (identical in `src/unnamed/part_001` lines 232-242):

```
const lastMsg = prev[prev.length - 1];
if (lastMsg && lastMsg.role === role && !lastMsg.isComplete) {
  const updatedMsg = { ...lastMsg, text: lastMsg.text + text, isComplete: isFinal };
  return [...prev.slice(0, -1), updatedMsg];
}
if (!text) return prev;
return [...prev, { id: Date.now().toString(), role, text, isComplete: isFinal, timestamp: Date.now() }];
```

`now` stands for `Date.now()`.  `!text` is true exactly on the empty
string. -/
def updateTranscript (now : Nat) (role : Role) (text : String) (isFinal : Bool)
    (prev : List ChatMessage) : List ChatMessage :=
  match prev.getLast? with
  | some lastMsg =>
      if lastMsg.role = role ∧ lastMsg.isComplete = false then
        prev.dropLast ++
          [{ lastMsg with text := lastMsg.text ++ text, isComplete := isFinal }]
      else if text = "" then
        prev
      else
        prev ++ [{ id := now, role := role, text := text, isComplete := isFinal,
                   timestamp := now }]
  | none =>
      if text = "" then
        prev
      else
        prev ++ [{ id := now, role := role, text := text, isComplete := isFinal,
                   timestamp := now }]

/-- The condition of the in-place-merge branch of `updateTranscript`:
the last message of the log exists, has the given role, and is open. -/
def openTarget (role : Role) (prev : List ChatMessage) : Bool :=
  match prev.getLast? with
  | some lastMsg => decide (lastMsg.role = role) && !lastMsg.isComplete
  | none => false

/-- The clock-independent content of a message: everything except the
`Date.now()`-derived `id` and `timestamp` fields. -/
def visible (m : ChatMessage) : Role × String × Bool :=
  (m.role, m.text, m.isComplete)

/-- Replaying a stream of `(role, textDelta, isFinal)` tuples through the
assembler, starting from a given log; `ts` supplies the wall-clock value
(`Date.now()`) observed at the i-th event. -/
def runTranscriptAux (ts : Nat → Nat) (i : Nat) :
    List (Role × String × Bool) → List ChatMessage → List ChatMessage
  | [], log => log
  | (r, t, f) :: es, log =>
      runTranscriptAux ts (i + 1) es (updateTranscript (ts i) r t f log)

/-- Replaying a stream of tuples against a fresh assembler (empty log). -/
def runTranscript (ts : Nat → Nat) (es : List (Role × String × Bool)) :
    List ChatMessage :=
  runTranscriptAux ts 0 es []

/-- Appending to a non-empty string yields a non-empty string. -/
theorem append_ne_empty_left (s t : String) (h : s ≠ "") : s ++ t ≠ "" := by
  intro hc
  apply h
  have hlen := congrArg String.length hc
  rw [String.length_append] at hlen
  have hz : ("" : String).length = 0 := rfl
  have hs : s.length = 0 := by omega
  cases s with
  | mk d =>
      simp [String.length] at hs
      simp [hs]

theorem updateTranscript_concat_open (now : Nat) (r : Role) (t : String)
    (f : Bool) (ms : List ChatMessage) (m : ChatMessage)
    (hrole : m.role = r) (hopen : m.isComplete = false) :
    updateTranscript now r t f (ms ++ [m]) =
      ms ++ [{ m with text := m.text ++ t, isComplete := f }] := by
  unfold updateTranscript
  rw [List.getLast?_concat]
  simp [hrole, hopen, List.dropLast_concat]

theorem updateTranscript_no_open (now : Nat) (r : Role) (t : String)
    (f : Bool) (prev : List ChatMessage) (hno : openTarget r prev = false) :
    updateTranscript now r t f prev =
      if t = "" then prev
      else prev ++ [{ id := now, role := r, text := t, isComplete := f,
                      timestamp := now }] := by
  unfold updateTranscript openTarget at *
  cases hlast : prev.getLast? with
  | none => simp [hlast]
  | some lastMsg =>
      rw [hlast] at hno
      simp only [hlast]
      have hcond : ¬ (lastMsg.role = r ∧ lastMsg.isComplete = false) := by
        intro ⟨h1, h2⟩
        simp [h1, h2] at hno
      simp [hcond]

theorem updateTranscript_complete_last (now : Nat) (r : Role) (t : String)
    (f : Bool) (ms : List ChatMessage) (m : ChatMessage)
    (hdone : m.isComplete = true) :
    ∃ tail, updateTranscript now r t f (ms ++ [m]) = (ms ++ [m]) ++ tail := by
  unfold updateTranscript
  rw [List.getLast?_concat]
  have hc : ¬ (m.role = r ∧ m.isComplete = false) := by simp [hdone]
  by_cases ht : t = ""
  · exact ⟨[], by simp [hc, ht]⟩
  · refine ⟨[{ id := now, role := r, text := t, isComplete := f,
               timestamp := now }], ?_⟩
    simp [hc, ht]

theorem updateTranscript_keeps_nonempty (now : Nat) (r : Role) (t : String)
    (f : Bool) (prev : List ChatMessage) (hne : ∀ x ∈ prev, x.text ≠ "") :
    ∀ x ∈ updateTranscript now r t f prev, x.text ≠ "" := by
  rcases List.eq_nil_or_concat prev with hnil | ⟨L, b, hLb⟩
  · subst hnil
    intro x hx
    unfold updateTranscript at hx
    by_cases ht : t = "" <;> simp [ht] at hx
    rcases hx with rfl
    exact ht
  · rw [List.concat_eq_append] at hLb
    subst hLb
    intro x hx
    by_cases hc : b.role = r ∧ b.isComplete = false
    · unfold updateTranscript at hx
      rw [List.getLast?_concat] at hx
      simp only [hc, and_self, if_true, List.dropLast_concat] at hx
      rcases List.mem_append.1 hx with hxL | hxm
      · exact hne x (List.mem_append_left _ hxL)
      · have hb : b.text ≠ "" := hne b (List.mem_append_right _ (by simp))
        simp at hxm
        subst hxm
        exact append_ne_empty_left _ _ hb
    · unfold updateTranscript at hx
      rw [List.getLast?_concat] at hx
      simp only [hc, if_false] at hx
      by_cases ht : t = ""
      · simp only [ht, if_true] at hx
        exact hne x hx
      · simp only [ht, if_false] at hx
        rcases List.mem_append.1 hx with hxp | hxnew
        · exact hne x hxp
        · simp at hxnew
          subst hxnew
          exact ht

theorem visible_updateTranscript (n1 n2 : Nat) (r : Role) (t : String)
    (f : Bool) (l1 l2 : List ChatMessage)
    (h : l1.map visible = l2.map visible) :
    (updateTranscript n1 r t f l1).map visible =
      (updateTranscript n2 r t f l2).map visible := by
  have hlast : l1.getLast?.map visible = l2.getLast?.map visible := by
    rw [← List.getLast?_map, ← List.getLast?_map, h]
  unfold updateTranscript
  cases h1 : l1.getLast? with
  | none =>
      cases h2 : l2.getLast? with
      | none =>
          by_cases ht : t = "" <;> simp [ht, h, visible]
      | some b =>
          rw [h1, h2] at hlast
          simp at hlast
  | some a =>
      cases h2 : l2.getLast? with
      | none =>
          rw [h1, h2] at hlast
          simp at hlast
      | some b =>
          rw [h1, h2] at hlast
          simp only [Option.map_some', Option.some.injEq, visible,
            Prod.mk.injEq] at hlast
          obtain ⟨hrole, htext, hcomp⟩ := hlast
          by_cases hc : a.role = r ∧ a.isComplete = false
          · have hc2 : b.role = r ∧ b.isComplete = false := by
              rw [← hrole, ← hcomp]; exact hc
            simp only [hc, hc2, and_self, if_true, List.map_append,
              List.map_cons, List.map_nil]
            rw [List.map_dropLast, List.map_dropLast, h]
            simp [visible, hrole, htext]
          · have hc2 : ¬ (b.role = r ∧ b.isComplete = false) := by
              rw [← hrole, ← hcomp]; exact hc
            by_cases ht : t = "" <;> simp [hc, hc2, ht, h, visible]

theorem visible_runTranscriptAux (ts1 ts2 : Nat → Nat)
    (es : List (Role × String × Bool)) :
    ∀ i1 i2 l1 l2, l1.map visible = l2.map visible →
      (runTranscriptAux ts1 i1 es l1).map visible =
        (runTranscriptAux ts2 i2 es l2).map visible := by
  induction es with
  | nil =>
      intro i1 i2 l1 l2 h
      simpa [runTranscriptAux] using h
  | cons e rest ih =>
      intro i1 i2 l1 l2 h
      obtain ⟨r, t, f⟩ := e
      simp only [runTranscriptAux]
      exact ih _ _ _ _ (visible_updateTranscript _ _ _ _ _ _ _ h)

/-- Claim C2: for every incoming transcript tuple `(role, textDelta,
isFinal)`: if the last message of the log has the same role and is open,
the delta is appended to that message and its completion flag becomes
`isFinal`; otherwise a new message is appended exactly when the delta is
non-empty, an empty delta leaves the log unchanged, and no empty message
is ever created. -/
theorem C2_transcript_merge_rule (now : Nat) (r : Role) (t : String)
    (f : Bool) (ms : List ChatMessage) (m : ChatMessage)
    (prev prev2 : List ChatMessage)
    (hrole : m.role = r) (hopen : m.isComplete = false)
    (hno : openTarget r prev = false)
    (hne : ∀ x ∈ prev2, x.text ≠ "") :
    (updateTranscript now r t f (ms ++ [m]) =
        ms ++ [{ m with text := m.text ++ t, isComplete := f }])
  ∧ (t ≠ "" → updateTranscript now r t f prev =
        prev ++ [{ id := now, role := r, text := t, isComplete := f,
                   timestamp := now }])
  ∧ (t = "" → updateTranscript now r t f prev = prev)
  ∧ (∀ x ∈ updateTranscript now r t f prev2, x.text ≠ "") := by
  refine ⟨updateTranscript_concat_open now r t f ms m hrole hopen, ?_, ?_, ?_⟩
  · intro ht
    rw [updateTranscript_no_open now r t f prev hno]
    simp [ht]
  · intro ht
    rw [updateTranscript_no_open now r t f prev hno]
    simp [ht]
  · exact updateTranscript_keeps_nonempty now r t f prev2 hne

theorem C2_transcript_merge_rule_witness :
    (updateTranscript 7 Role.user "hi" true
        ([] ++ [⟨3, Role.user, "a", false, 3⟩]) =
      [] ++ [⟨3, Role.user, "a" ++ "hi", true, 3⟩])
  ∧ ("hi" ≠ "" → updateTranscript 7 Role.user "hi" true [] =
      [] ++ [⟨7, Role.user, "hi", true, 7⟩])
  ∧ ("hi" = "" → updateTranscript 7 Role.user "hi" true [] = [])
  ∧ (∀ x ∈ updateTranscript 7 Role.user "hi" true [], x.text ≠ "") :=
  C2_transcript_merge_rule 7 Role.user "hi" true []
    ⟨3, Role.user, "a", false, 3⟩ [] [] rfl rfl rfl (by simp)

/-- Claim C10: an empty delta arriving for a role whose last message is
open still updates that message: the text is unchanged and the completion
flag is set to the incoming `isFinal`; and every update leaves all
messages other than the last unchanged (the dropped-last prefix of the
log survives every update verbatim). -/
theorem C10_empty_delta_finalizes (now : Nat) (r : Role) (t : String)
    (f : Bool) (ms : List ChatMessage) (m : ChatMessage)
    (prev : List ChatMessage)
    (hrole : m.role = r) (hopen : m.isComplete = false) :
    (updateTranscript now r "" f (ms ++ [m]) =
        ms ++ [{ m with isComplete := f }])
  ∧ (∃ tail, updateTranscript now r t f prev = prev.dropLast ++ tail) := by
  constructor
  · rw [updateTranscript_concat_open now r "" f ms m hrole hopen]
    have htext : m.text ++ "" = m.text := by simp
    rw [htext]
  · rcases List.eq_nil_or_concat prev with hnil | ⟨L, b, hLb⟩
    · subst hnil
      exact ⟨updateTranscript now r t f [], by simp⟩
    · rw [List.concat_eq_append] at hLb
      subst hLb
      unfold updateTranscript
      rw [List.getLast?_concat, List.dropLast_concat]
      by_cases hc : b.role = r ∧ b.isComplete = false
      · exact ⟨[{ b with text := b.text ++ t, isComplete := f }], by
          simp [hc, List.dropLast_concat]⟩
      · by_cases ht : t = ""
        · exact ⟨[b], by simp [hc, ht]⟩
        · exact ⟨[b, { id := now, role := r, text := t, isComplete := f,
                       timestamp := now }], by simp [hc, ht]⟩

theorem C10_empty_delta_finalizes_witness :
    (updateTranscript 9 Role.model "" true
        ([] ++ [⟨2, Role.model, "ok", false, 2⟩]) =
      [] ++ [⟨2, Role.model, "ok", true, 2⟩])
  ∧ (∃ tail, updateTranscript 9 Role.model "x" true
        [⟨1, Role.user, "q", true, 1⟩] =
      [⟨1, Role.user, "q", true, 1⟩].dropLast ++ tail) :=
  C10_empty_delta_finalizes 9 Role.model "x" true []
    ⟨2, Role.model, "ok", false, 2⟩ [⟨1, Role.user, "q", true, 1⟩] rfl rfl

/-- Claim C3: a message whose completion flag is true is never the append
target again (the old log always survives as a prefix of the update);
replaying the same tuple sequence against a fresh assembler yields the
same message list regardless of the wall clock observed at each event
(identical up to the `Date.now()`-derived `id`/`timestamp` fields); and
replaying a finalization event twice never duplicates text into the
completed message, whose log survives the replay as an unchanged
prefix. -/
theorem C3_replay_idempotent (ts1 ts2 : Nat → Nat)
    (es : List (Role × String × Bool)) (n1 n2 n3 : Nat) (r : Role)
    (t : String) (f : Bool) (ms ms2 : List ChatMessage)
    (m m2 : ChatMessage)
    (hdone : m2.isComplete = true)
    (hrole : m.role = r) (hopen : m.isComplete = false) :
    (∃ tail, updateTranscript n3 r t f (ms2 ++ [m2]) = (ms2 ++ [m2]) ++ tail)
  ∧ ((runTranscript ts1 es).map visible = (runTranscript ts2 es).map visible)
  ∧ (∃ tail,
        updateTranscript n2 r t true
            (updateTranscript n1 r t true (ms ++ [m])) =
          updateTranscript n1 r t true (ms ++ [m]) ++ tail) := by
  refine ⟨updateTranscript_complete_last n3 r t f ms2 m2 hdone, ?_, ?_⟩
  · exact visible_runTranscriptAux ts1 ts2 es 0 0 [] [] rfl
  · rw [updateTranscript_concat_open n1 r t true ms m hrole hopen]
    exact updateTranscript_complete_last n2 r t true ms
      { m with text := m.text ++ t, isComplete := true } rfl

theorem C3_replay_idempotent_witness :
    (∃ tail, updateTranscript 5 Role.model "x" false
        ([] ++ [⟨1, Role.model, "done", true, 1⟩]) =
      ([] ++ [⟨1, Role.model, "done", true, 1⟩]) ++ tail)
  ∧ ((runTranscript (fun _ => 0)
        [(Role.model, "x", true), (Role.model, "x", true)]).map visible =
      (runTranscript (fun i => i + 100)
        [(Role.model, "x", true), (Role.model, "x", true)]).map visible)
  ∧ (∃ tail,
        updateTranscript 4 Role.model "x" true
            (updateTranscript 3 Role.model "x" true
              ([] ++ [⟨2, Role.model, "a", false, 2⟩])) =
          updateTranscript 3 Role.model "x" true
            ([] ++ [⟨2, Role.model, "a", false, 2⟩]) ++ tail) :=
  C3_replay_idempotent (fun _ => 0) (fun i => i + 100)
    [(Role.model, "x", true), (Role.model, "x", true)] 3 4 5 Role.model "x"
    false [] [] ⟨2, Role.model, "a", false, 2⟩
    ⟨1, Role.model, "done", true, 1⟩ rfl rfl rfl

/-- Inbound events handled by the playback-scheduler part of the
`onmessage` callback (LiveTutor.tsx lines 666 and 703-725):
a decoded audio buffer (with the output clock `currentTime` observed at
arrival and the buffer duration), a per-source `ended` notification,
a `turnComplete` marker, and an `interrupted` marker. -/
inductive SchedEvent where
  | audio (clock dur : ℚ)
  | ended (sid : Nat)
  | turnComplete
  | interrupted
deriving DecidableEq, Repr

/-- Playback-scheduler state: `nextStartTimeRef`, the `activeSourcesRef`
set (buffer source nodes embedded as the ids of a fresh-id counter), and
`isBotSpeaking`.  `nextId` embeds allocation of a fresh
`AudioBufferSourceNode` per arrival. -/
structure SchedState where
  nextStartTime : ℚ
  active : List Nat
  isBotSpeaking : Bool
  nextId : Nat
deriving DecidableEq, Repr

/-- Initial scheduler state: `nextStartTimeRef.current = 0` (line 579),
empty source set, not speaking. -/
def schedInit : SchedState :=
  { nextStartTime := 0, active := [], isBotSpeaking := false, nextId := 0 }

/-- One scheduler step, from LiveTutor.tsx:

* audio arrival (lines 703-718): `setIsBotSpeaking(true)`;
  `nextStartTime = max(nextStartTime, currentTime)`; the new source is
  started at `nextStartTime` (returned as the assigned start);
  `nextStartTime += buffer.duration`; the source joins the active set;
* a source `ended` listener (lines 711-714): the source leaves the set
  and, if the set became empty, `setIsBotSpeaking(false)`;
* `turnComplete` (line 666): `setIsBotSpeaking(false)` only;
* `interrupted` (lines 719-725): every source is stopped, the set is
  cleared, `nextStartTime = 0`, `setIsBotSpeaking(false)`. -/
def schedStep (s : SchedState) : SchedEvent → SchedState × Option ℚ
  | SchedEvent.audio clock dur =>
      let start := max s.nextStartTime clock
      ({ nextStartTime := start + dur,
         active := s.nextId :: s.active,
         isBotSpeaking := true,
         nextId := s.nextId + 1 }, some start)
  | SchedEvent.ended sid =>
      let rest := s.active.erase sid
      ({ s with active := rest,
                isBotSpeaking := if rest.isEmpty then false
                                 else s.isBotSpeaking }, none)
  | SchedEvent.turnComplete =>
      ({ s with isBotSpeaking := false }, none)
  | SchedEvent.interrupted =>
      ({ s with active := [], nextStartTime := 0, isBotSpeaking := false },
       none)

/-- Running the scheduler over a sequence of events. -/
def schedRun (s : SchedState) (es : List SchedEvent) : SchedState :=
  es.foldl (fun st e => (schedStep st e).1) s

/-- The start times assigned to a sequence of audio-buffer arrivals,
each given as `(clock, duration)`: the direct transcription of the
per-arrival timeline update of lines 706, 715 and 716
(`nextStartTime = max(nextStartTime, currentTime)`; start at
`nextStartTime`; `nextStartTime += duration`). -/
def scheduleStarts (nst : ℚ) : List (ℚ × ℚ) → List ℚ
  | [] => []
  | b :: rest => max nst b.1 :: scheduleStarts (max nst b.1 + b.2) rest

theorem scheduleStarts_length (nst : ℚ) (bs : List (ℚ × ℚ)) :
    (scheduleStarts nst bs).length = bs.length := by
  induction bs generalizing nst with
  | nil => rfl
  | cons b rest ih => simp [scheduleStarts, ih]

theorem scheduleStarts_adjacent (bs : List (ℚ × ℚ)) :
    ∀ (nst : ℚ) (i : Nat), i + 1 < bs.length →
      (scheduleStarts nst bs).getD (i + 1) 0 =
        max ((scheduleStarts nst bs).getD i 0 + (bs.getD i (0, 0)).2)
          ((bs.getD (i + 1) (0, 0)).1) := by
  induction bs with
  | nil =>
      intro nst i h
      simp at h
  | cons b rest ih =>
      intro nst i h
      cases i with
      | zero =>
          cases rest with
          | nil => simp at h
          | cons b2 rest2 =>
              simp [scheduleStarts]
      | succ j =>
          have hj : j + 1 < rest.length := by
            simp at h
            omega
          simpa [scheduleStarts] using ih (max nst b.1 + b.2) j hj

/-- Claim C1: for every sequence of audio-buffer arrivals `(clock, dur)`
with non-negative durations, the assigned start times satisfy, for every
adjacent pair: `start[i+1] ≥ start[i] + dur[i]`, with equality whenever
the next buffer arrives no later than the previous one finishes
(`clock[i+1] ≤ start[i] + dur[i]`), and the start times are
non-decreasing. -/
theorem C1_schedule_gapless (nst : ℚ) (bs : List (ℚ × ℚ)) (i : Nat)
    (hd : ∀ b ∈ bs, 0 ≤ b.2) (hi : i + 1 < bs.length) :
    ((scheduleStarts nst bs).getD i 0 + (bs.getD i (0, 0)).2 ≤
        (scheduleStarts nst bs).getD (i + 1) 0)
  ∧ ((bs.getD (i + 1) (0, 0)).1 ≤
        (scheduleStarts nst bs).getD i 0 + (bs.getD i (0, 0)).2 →
      (scheduleStarts nst bs).getD (i + 1) 0 =
        (scheduleStarts nst bs).getD i 0 + (bs.getD i (0, 0)).2)
  ∧ ((scheduleStarts nst bs).getD i 0 ≤
        (scheduleStarts nst bs).getD (i + 1) 0) := by
  have hadj := scheduleStarts_adjacent bs nst i hi
  have hmem : bs.getD i (0, 0) ∈ bs := by
    have hlt : i < bs.length := by omega
    rw [List.getD_eq_getElem bs (0, 0) hlt]
    exact bs.getElem_mem hlt
  have hdur : 0 ≤ (bs.getD i (0, 0)).2 := hd _ hmem
  refine ⟨?_, ?_, ?_⟩
  · rw [hadj]
    exact le_max_left _ _
  · intro harr
    rw [hadj]
    exact max_eq_left harr
  · rw [hadj]
    calc (scheduleStarts nst bs).getD i 0
        ≤ (scheduleStarts nst bs).getD i 0 + (bs.getD i (0, 0)).2 := by
          linarith
      _ ≤ _ := le_max_left _ _

theorem C1_schedule_gapless_witness :
    ((scheduleStarts 0 [((0 : ℚ), (1 : ℚ)), (0, 1)]).getD 0 0 +
        ([((0 : ℚ), (1 : ℚ)), (0, 1)].getD 0 (0, 0)).2 ≤
      (scheduleStarts 0 [((0 : ℚ), (1 : ℚ)), (0, 1)]).getD 1 0)
  ∧ (([((0 : ℚ), (1 : ℚ)), (0, 1)].getD 1 (0, 0)).1 ≤
        (scheduleStarts 0 [((0 : ℚ), (1 : ℚ)), (0, 1)]).getD 0 0 +
          ([((0 : ℚ), (1 : ℚ)), (0, 1)].getD 0 (0, 0)).2 →
      (scheduleStarts 0 [((0 : ℚ), (1 : ℚ)), (0, 1)]).getD 1 0 =
        (scheduleStarts 0 [((0 : ℚ), (1 : ℚ)), (0, 1)]).getD 0 0 +
          ([((0 : ℚ), (1 : ℚ)), (0, 1)].getD 0 (0, 0)).2)
  ∧ ((scheduleStarts 0 [((0 : ℚ), (1 : ℚ)), (0, 1)]).getD 0 0 ≤
      (scheduleStarts 0 [((0 : ℚ), (1 : ℚ)), (0, 1)]).getD 1 0) :=
  C1_schedule_gapless 0 [(0, 1), (0, 1)] 0
    (by intro b hb; fin_cases hb <;> norm_num) (by norm_num)

/-- Claim C4: the `interrupted` handler clears the active-source set and
resets `nextStartTime` to zero, so an audio buffer arriving next is
assigned start time equal to the clock observed at its arrival
("now"), not the pre-interruption cursor. -/
theorem C4_interrupt_resets_timeline (s : SchedState) (clock dur : ℚ)
    (hclock : 0 ≤ clock) :
    ((schedStep s SchedEvent.interrupted).1.active = [])
  ∧ ((schedStep s SchedEvent.interrupted).1.nextStartTime = 0)
  ∧ ((schedStep (schedStep s SchedEvent.interrupted).1
        (SchedEvent.audio clock dur)).2 = some clock) := by
  refine ⟨rfl, rfl, ?_⟩
  simp [schedStep, max_eq_right hclock]

theorem C4_interrupt_resets_timeline_witness :
    ((schedStep ⟨5, [0, 1], true, 2⟩ SchedEvent.interrupted).1.active = [])
  ∧ ((schedStep ⟨5, [0, 1], true, 2⟩
        SchedEvent.interrupted).1.nextStartTime = 0)
  ∧ ((schedStep (schedStep ⟨5, [0, 1], true, 2⟩ SchedEvent.interrupted).1
        (SchedEvent.audio 3 1)).2 = some 3) :=
  C4_interrupt_resets_timeline ⟨5, [0, 1], true, 2⟩ 3 1 (by norm_num)

/-- Claim C6 fails on the code: after an audio arrival followed by a
`turnComplete` marker, the active-source set still holds the scheduled
buffer but the speaking flag has been cleared (line 666 clears the flag
without touching the set), so the flag is not equivalent to the set
being non-empty. -/
theorem C6_speaking_iff_active_counterexample :
    ¬ (((schedRun schedInit
          [SchedEvent.audio 0 1, SchedEvent.turnComplete]).isBotSpeaking =
            true) ↔
       ((schedRun schedInit
          [SchedEvent.audio 0 1, SchedEvent.turnComplete]).active ≠ [])) := by
  intro h
  have hact : (schedRun schedInit
      [SchedEvent.audio 0 1, SchedEvent.turnComplete]).active = [0] := rfl
  have hspk : (schedRun schedInit
      [SchedEvent.audio 0 1, SchedEvent.turnComplete]).isBotSpeaking =
        false := rfl
  have := h.mpr (by rw [hact]; simp)
  rw [hspk] at this
  exact Bool.false_ne_true this

/-- The one-sided speaking invariant: if the speaking flag is set, the
active-source set is non-empty. -/
def speakInv (s : SchedState) : Prop :=
  s.isBotSpeaking = true → s.active ≠ []

theorem schedStep_preserves_speakInv (s : SchedState) (e : SchedEvent)
    (_h : speakInv s) : speakInv (schedStep s e).1 := by
  cases e with
  | audio clock dur =>
      intro _
      simp [schedStep]
  | ended sid =>
      intro hspk
      simp only [schedStep] at hspk ⊢
      by_cases hrest : (s.active.erase sid).isEmpty
      · simp [hrest] at hspk
      · intro hnil
        rw [hnil] at hrest
        simp at hrest
  | turnComplete =>
      intro hspk
      simp [schedStep] at hspk
  | interrupted =>
      intro hspk
      simp [schedStep] at hspk

theorem schedRun_preserves_speakInv (s : SchedState) (es : List SchedEvent)
    (h : speakInv s) : speakInv (schedRun s es) := by
  induction es generalizing s with
  | nil => exact h
  | cons e rest ih =>
      have hstep : schedRun s (e :: rest) = schedRun (schedStep s e).1 rest :=
        rfl
      rw [hstep]
      exact ih _ (schedStep_preserves_speakInv s e h)

/-- Claim C6, amended: at every state reachable from the initial
scheduler state, the speaking flag being set implies the active-source
set is non-empty; the converse fails because a `turnComplete` marker
clears the flag while scheduled buffers may remain in the set. -/
theorem C6_speaking_implies_active (es : List SchedEvent)
    (h : (schedRun schedInit es).isBotSpeaking = true) :
    (schedRun schedInit es).active ≠ [] := by
  have hinv : speakInv schedInit := by
    intro hspk
    simp [schedInit] at hspk
  exact schedRun_preserves_speakInv schedInit es hinv h

theorem C6_speaking_implies_active_witness :
    (schedRun schedInit [SchedEvent.audio 0 1]).active ≠ [] :=
  C6_speaking_implies_active [SchedEvent.audio 0 1] rfl

/-- Network-quality tier, from the `networkStatus` state union
`'good' | 'moderate' | 'poor' | 'unknown'` (LiveTutor.tsx line 165). -/
inductive NetworkTier where
  | good
  | moderate
  | poor
  | unknown
deriving DecidableEq, Repr

/-- Outbound media cadence selected by the quality controller:
`videoFrameRate`, `videoQuality` (JPEG compression level) and
`networkStatus`. -/
structure QualityState where
  videoFrameRate : ℚ
  videoQuality : ℚ
  networkStatus : NetworkTier
deriving DecidableEq, Repr

/-- Adaptive quality controller, from `updateQuality` in LiveTutor.tsx
lines 208-228:

```
if (downlink < 1.5 || rtt > 500)      { 0.5 fps, 0.4, poor }
else if (downlink < 5 || rtt > 150)   { 1.5 fps, 0.5, moderate }
else                                  { 2.5 fps, 0.65, good }
```
-/
def updateQuality (downlink rtt : ℚ) : QualityState :=
  if downlink < 3 / 2 ∨ rtt > 500 then
    { videoFrameRate := 1 / 2, videoQuality := 2 / 5,
      networkStatus := NetworkTier.poor }
  else if downlink < 5 ∨ rtt > 150 then
    { videoFrameRate := 3 / 2, videoQuality := 1 / 2,
      networkStatus := NetworkTier.moderate }
  else
    { videoFrameRate := 5 / 2, videoQuality := 13 / 20,
      networkStatus := NetworkTier.good }

/-- Claim C5: the controller selects tier poor (0.5 fps, compression
0.4) when `downlink < 1.5` or `rtt > 500`; otherwise moderate (1.5 fps,
0.5) when `downlink < 5` or `rtt > 150`; otherwise good (2.5 fps,
0.65); in particular `(1.0, 100)` yields poor and `(10, 50)` yields
good. -/
theorem C5_quality_tiers (d1 r1 d2 r2 d3 r3 : ℚ)
    (h1 : d1 < 3 / 2 ∨ r1 > 500)
    (h2a : ¬ (d2 < 3 / 2 ∨ r2 > 500)) (h2b : d2 < 5 ∨ r2 > 150)
    (h3a : ¬ (d3 < 3 / 2 ∨ r3 > 500)) (h3b : ¬ (d3 < 5 ∨ r3 > 150)) :
    (updateQuality d1 r1 = ⟨1 / 2, 2 / 5, NetworkTier.poor⟩)
  ∧ (updateQuality d2 r2 = ⟨3 / 2, 1 / 2, NetworkTier.moderate⟩)
  ∧ (updateQuality d3 r3 = ⟨5 / 2, 13 / 20, NetworkTier.good⟩)
  ∧ (updateQuality 1 100 = ⟨1 / 2, 2 / 5, NetworkTier.poor⟩)
  ∧ (updateQuality 10 50 = ⟨5 / 2, 13 / 20, NetworkTier.good⟩) := by
  refine ⟨?_, ?_, ?_, ?_, ?_⟩
  · simp [updateQuality, h1]
  · simp [updateQuality, h2a, h2b]
  · simp [updateQuality, h3a, h3b]
  · norm_num [updateQuality]
  · norm_num [updateQuality]

theorem C5_quality_tiers_witness :
    (updateQuality 1 100 = ⟨1 / 2, 2 / 5, NetworkTier.poor⟩)
  ∧ (updateQuality 3 100 = ⟨3 / 2, 1 / 2, NetworkTier.moderate⟩)
  ∧ (updateQuality 10 50 = ⟨5 / 2, 13 / 20, NetworkTier.good⟩)
  ∧ (updateQuality 1 100 = ⟨1 / 2, 2 / 5, NetworkTier.poor⟩)
  ∧ (updateQuality 10 50 = ⟨5 / 2, 13 / 20, NetworkTier.good⟩) :=
  C5_quality_tiers 1 100 3 100 10 50 (by norm_num) (by norm_num)
    (by norm_num) (by norm_num) (by norm_num)

/-- One function call inside a received `toolCall` event: `id`, `name`,
and whether processing its `args` succeeds (`argsOk = false` embeds the
caught exception branch of the `draw_diagram` handler). -/
structure FunctionCall where
  id : String
  name : String
  argsOk : Bool
deriving DecidableEq, Repr

/-- A structured tool result payload: `{ result: ... }` or
`{ error: ... }`. -/
inductive ToolPayload where
  | result (s : String)
  | error (s : String)
deriving DecidableEq, Repr

/-- One entry of the `functionResponses` array sent back through
`session.sendToolResponse`. -/
structure FunctionResponse where
  id : String
  name : String
  response : ToolPayload
deriving DecidableEq, Repr

/-- Tool-call dispatch, from the `msg.toolCall` handling in LiveTutor.tsx
lines 669-700: every function call is mapped to exactly one response
carrying the call's `id` and `name`; a `draw_diagram` call answers
`result: "Diagram displayed successfully."` (or
`error: "Failed to render diagram."` if processing the arguments
throws); any other name answers `result: "Function not implemented"`. -/
def handleToolCalls (calls : List FunctionCall) : List FunctionResponse :=
  calls.map fun call =>
    if call.name = "draw_diagram" then
      if call.argsOk then
        { id := call.id, name := call.name,
          response := ToolPayload.result "Diagram displayed successfully." }
      else
        { id := call.id, name := call.name,
          response := ToolPayload.error "Failed to render diagram." }
    else
      { id := call.id, name := call.name,
        response := ToolPayload.result "Function not implemented" }

theorem getD_map_of_lt {α β : Type} (f : α → β) (l : List α) (i : Nat)
    (h : i < l.length) (d : α) (d2 : β) :
    (l.map f).getD i d2 = f (l.getD i d) := by
  induction l generalizing i with
  | nil => simp at h
  | cons a rest ih =>
      cases i with
      | zero => simp
      | succ j =>
          simp only [List.map_cons, List.getD_cons_succ]
          exact ih j (by simpa using h)

/-- Claim C9: every received tool invocation produces exactly one
response per contained function call (same length, and the i-th response
carries the i-th call's invocation id), and a call whose name is not the
registered `draw_diagram` capability is answered with a
"Function not implemented" result rather than being dropped. -/
theorem C9_tool_call_responses (calls : List FunctionCall) (i : Nat)
    (hi : i < calls.length) :
    ((handleToolCalls calls).length = calls.length)
  ∧ (((handleToolCalls calls).getD i
        ⟨"", "", ToolPayload.result ""⟩).id =
        (calls.getD i ⟨"", "", true⟩).id)
  ∧ ((calls.getD i ⟨"", "", true⟩).name ≠ "draw_diagram" →
      ((handleToolCalls calls).getD i
          ⟨"", "", ToolPayload.result ""⟩).response =
        ToolPayload.result "Function not implemented") := by
  have hmap := getD_map_of_lt
    (fun call =>
      if call.name = "draw_diagram" then
        if call.argsOk then
          ({ id := call.id, name := call.name,
             response :=
               ToolPayload.result "Diagram displayed successfully." } :
            FunctionResponse)
        else
          { id := call.id, name := call.name,
            response := ToolPayload.error "Failed to render diagram." }
      else
        { id := call.id, name := call.name,
          response := ToolPayload.result "Function not implemented" })
    calls i hi ⟨"", "", true⟩ ⟨"", "", ToolPayload.result ""⟩
  refine ⟨by simp [handleToolCalls], ?_, ?_⟩
  · unfold handleToolCalls
    rw [hmap]
    by_cases hname : (calls.getD i ⟨"", "", true⟩).name = "draw_diagram" <;>
      by_cases hok : (calls.getD i ⟨"", "", true⟩).argsOk <;>
      simp only [List.getD_eq_getElem?_getD] at hname hok ⊢ <;>
      simp [hname, hok]
  · intro hname
    unfold handleToolCalls
    rw [hmap]
    simp only [List.getD_eq_getElem?_getD] at hname ⊢
    simp [hname]

theorem C9_tool_call_responses_witness :
    ((handleToolCalls [⟨"inv-1", "solve_quiz", true⟩]).length =
        ([⟨"inv-1", "solve_quiz", true⟩] : List FunctionCall).length)
  ∧ (((handleToolCalls [⟨"inv-1", "solve_quiz", true⟩]).getD 0
        ⟨"", "", ToolPayload.result ""⟩).id =
      (([⟨"inv-1", "solve_quiz", true⟩] : List FunctionCall).getD 0
        ⟨"", "", true⟩).id)
  ∧ ((([⟨"inv-1", "solve_quiz", true⟩] : List FunctionCall).getD 0
        ⟨"", "", true⟩).name ≠ "draw_diagram" →
      ((handleToolCalls [⟨"inv-1", "solve_quiz", true⟩]).getD 0
        ⟨"", "", ToolPayload.result ""⟩).response =
        ToolPayload.result "Function not implemented") :=
  C9_tool_call_responses [⟨"inv-1", "solve_quiz", true⟩] 0 (by norm_num)

/-- Connection lifecycle, from `ConnectionState` in types.ts /
`src/unnamed/part_000`. -/
inductive ConnectionState where
  | disconnected
  | connecting
  | connected
  | error
deriving DecidableEq, Repr

/-- The session resources the error-handling and start-up claims talk
about: the connection state, the displayed error message, the number of
live capture streams held (`getUserMedia` results attached to the video
element), the active playback-source set, and the number of outbound
channels opened (`ai.live.connect` calls). -/
structure SessionCtx where
  connectionState : ConnectionState
  errorMsg : Option String
  captureStreams : Nat
  activeSources : List Nat
  channelsOpened : Nat
deriving DecidableEq, Repr

/-- The `onerror` callback of the live connection, from LiveTutor.tsx
lines 731-735: it sets the error message and moves the state to `error`
— and does nothing else (no device release, no playback flush):

```
onerror: (err) => {
  console.error('Gemini Error:', err);
  setError(err instanceof Error ? err.message : "...");
  setConnectionState(ConnectionState.ERROR);
}
```
-/
def onerror (msg : String) (s : SessionCtx) : SessionCtx :=
  { s with errorMsg := some msg,
           connectionState := ConnectionState.error }

/-- The cleanup part of `stopSession`, from LiveTutor.tsx lines 467-504:
every active source is stopped and the set cleared, the capture stream's
tracks are stopped and detached, and the state becomes `disconnected`. -/
def stopSession (s : SessionCtx) : SessionCtx :=
  { s with activeSources := [],
           captureStreams := 0,
           connectionState := ConnectionState.disconnected }

/-- The entry behaviour of `startSession` on its success path, from
LiveTutor.tsx lines 540-746: the body begins unconditionally — there is
no check of the current connection state — with
`setConnectionState(CONNECTING)` and `setError(null)` and
`setMessages([])`, then acquires a capture stream via `getUserMedia`
and opens an outbound channel via `ai.live.connect`. -/
def startSession (s : SessionCtx) : SessionCtx :=
  { s with connectionState := ConnectionState.connecting,
           errorMsg := none,
           captureStreams := s.captureStreams + 1,
           channelsOpened := s.channelsOpened + 1 }

/-- The rendering guard of the only call site of `startSession`: the
start button (LiveTutor.tsx line 1466) is rendered exactly under
`connectionState === ConnectionState.DISCONNECTED && !error`
(line 1452). -/
def startButtonVisible (s : SessionCtx) : Bool :=
  decide (s.connectionState = ConnectionState.disconnected) &&
    decide (s.errorMsg = none)

/-- A session snapshot mid-conversation: connected, one capture stream
held, one audio source scheduled, one channel open. -/
def midSessionCtx : SessionCtx :=
  { connectionState := ConnectionState.connected,
    errorMsg := none,
    captureStreams := 1,
    activeSources := [0],
    channelsOpened := 1 }

/-- Claim C7 fails on the code: a transport error surfaced through the
`onerror` callback while a capture stream is held and an audio source is
scheduled moves the state to `error` but releases nothing — the capture
stream stays acquired and the playback queue is not flushed, unlike the
`catch` branch of `startSession`, which calls `stopSession`.  Evaluating
the embedded `onerror` at that failing state shows the partial cleanup
the claim rules out. -/
theorem C7_onerror_leaves_partial_state :
    ((onerror "connection lost" midSessionCtx).connectionState =
        ConnectionState.error)
  ∧ ((onerror "connection lost" midSessionCtx).captureStreams = 1)
  ∧ ((onerror "connection lost" midSessionCtx).activeSources = [0])
  ∧ ((stopSession midSessionCtx).captureStreams = 0
      ∧ (stopSession midSessionCtx).activeSources = []) :=
  ⟨rfl, rfl, rfl, rfl, rfl⟩

/-- Claim C8 fails as stated: `startSession` performs no state guard, so
invoked at a `connected` (or `connecting`) state it proceeds — it
acquires another capture stream and opens another outbound channel.  The
failing input is the mid-session snapshot. -/
theorem C8_start_guard_counterexample :
    (startSession midSessionCtx).captureStreams = 2
  ∧ (startSession midSessionCtx).channelsOpened = 2
  ∧ (startSession { midSessionCtx with
        connectionState := ConnectionState.connecting }).channelsOpened =
      2 := ⟨rfl, rfl, rfl⟩

/-- Claim C8, amended: the `startSession` function itself has no
connection-state guard — invoked in any state it proceeds, acquiring one
more capture stream and opening one more channel; re-entry is instead
prevented at its only call site, whose start control is rendered exactly
when the state is `disconnected` with no error shown, so a second start
cannot be initiated while `connecting` or `connected`. -/
theorem C8_start_only_from_disconnected (s : SessionCtx)
    (h : startButtonVisible s = true) :
    (s.connectionState = ConnectionState.disconnected
      ∧ s.connectionState ≠ ConnectionState.connecting
      ∧ s.connectionState ≠ ConnectionState.connected)
  ∧ ((startSession s).captureStreams = s.captureStreams + 1
      ∧ (startSession s).channelsOpened = s.channelsOpened + 1) := by
  have hdis : s.connectionState = ConnectionState.disconnected := by
    unfold startButtonVisible at h
    rcases Bool.and_eq_true_iff.1 h with ⟨h1, _⟩
    exact of_decide_eq_true h1
  refine ⟨⟨hdis, ?_, ?_⟩, rfl, rfl⟩
  · rw [hdis]; intro hc; cases hc
  · rw [hdis]; intro hc; cases hc

theorem C8_start_only_from_disconnected_witness :
    ((ConnectionState.disconnected = ConnectionState.disconnected
      ∧ (⟨ConnectionState.disconnected, none, 0, [], 0⟩ :
          SessionCtx).connectionState ≠ ConnectionState.connecting
      ∧ (⟨ConnectionState.disconnected, none, 0, [], 0⟩ :
          SessionCtx).connectionState ≠ ConnectionState.connected)
  ∧ ((startSession ⟨ConnectionState.disconnected, none, 0, [], 0⟩
        ).captureStreams = 0 + 1
      ∧ (startSession ⟨ConnectionState.disconnected, none, 0, [], 0⟩
        ).channelsOpened = 0 + 1)) :=
  C8_start_only_from_disconnected
    ⟨ConnectionState.disconnected, none, 0, [], 0⟩ rfl
